import Mathlib

/-!
Verification of the romanization orchestration pipeline of
`pleiades_writing_systems` (file `src/pleiades_writing_systems/romanization.py`).

The Python module is shallowly embedded below.  External collaborators
(the `langcodes` tag service, `unicodedata`, and the transliteration
backends `iuliia`, `python-slugify`, `romanize`, `romanize3`, `yuconv`)
are modelled as opaque function parameters gathered in an `Env` record;
everything that is code of the repository itself (script detection,
registry parsing, capability checks, dispatch, cleanup and error policy)
is translated directly from the source.
-/

set_option autoImplicit false

namespace PleiadesWS

/-- Python `str.title()` for the strings this pipeline feeds it:
uppercase an alphabetic character that starts an alphabetic run,
lowercase the rest of the run. -/
def pyTitleAux : Bool → List Char → List Char
  | _, [] => []
  | prevAlpha, c :: cs =>
    let c2 := if c.isAlpha then (if prevAlpha then c.toLower else c.toUpper) else c
    c2 :: pyTitleAux c.isAlpha cs

def pyTitle (s : String) : String :=
  String.mk (pyTitleAux false s.toList)

/-- Python `s.split(sep)` on character lists, with a fuel argument equal
to the length of the input so that the recursion is structural. -/
def pySplitAux (sep : List Char) : Nat → List Char → List Char → List (List Char)
  | _, [], acc => [acc.reverse]
  | 0, l, acc => [acc.reverse ++ l]
  | fuel + 1, c :: cs, acc =>
    if sep.isPrefixOf (c :: cs) then
      acc.reverse :: pySplitAux sep fuel (cs.drop (sep.length - 1)) []
    else
      pySplitAux sep fuel cs (c :: acc)

/-- Python `s.split(sep)` for a nonempty separator. -/
def pySplit (s sep : String) : List String :=
  (pySplitAux sep.toList s.toList.length s.toList []).map String.mk

/-- Python `s.strip()`. -/
def pyStrip (s : String) : String :=
  String.mk (((s.toList.dropWhile Char.isWhitespace).reverse.dropWhile Char.isWhitespace).reverse)

/-- Python `s.startswith(pre)`. -/
def pyStartsWith (s pre : String) : Bool :=
  pre.toList.isPrefixOf s.toList

/-- `name.split(" ")[0]` -/
def firstWord (s : String) : String :=
  (pySplit s " ").headD ""

/-- Python f-string rendering of a value that is either a string or `None`
(the detected script slot can hold `None`). -/
def pyStr : Option String → String
  | some s => s
  | none => "None"

/-- Python `x in s` for a possibly-`None` value against a set of strings. -/
def optMem (s : Option String) (l : List String) : Bool :=
  match s with
  | some x => l.contains x
  | none => false

/-- Python `set.add`: insert if absent, keep insertion order. -/
def setAdd {α : Type} [BEq α] (l : List α) (a : α) : List α :=
  if l.contains a then l else l ++ [a]

/-- Python `dict[k] = v`: replace the binding if the key is present,
append it otherwise. -/
def assocSet {α β : Type} [BEq α] (l : List (α × β)) (a : α) (b : β) : List (α × β) :=
  if (l.lookup a).isSome then
    l.map (fun p => if p.1 == a then (a, b) else p)
  else
    l ++ [(a, b)]

/-! ## Registry Index parser (`ScriptDetector._parse_registry`) -/

/-- The lookup tables built from the IANA Language Subtag Registry. -/
structure RegistryData where
  scripts_by_description : List (String × String) := []
  scripts_by_subtag : List (String × List String) := []
  languages_by_script : List (String × List String) := []
deriving DecidableEq

/-- The fatal registry-parse failures (`ValueError` in the source). -/
inductive RegError where
  | langLineParse (line : String)
  | langMultipleSubtag (subtag : String)
  | langMultipleScript (script : String)
  | langUnexpectedField (field : String)
  | scriptLineParse (line : String)
  | scriptMultipleSubtag (subtag : String)
  | scriptUnexpectedField (field : String)
  | duplicateDescription (description oldSubtag newSubtag : String)
  | duplicateSubtag (subtag : String)
deriving DecidableEq

/-- Python `line.split(": ", 1)`; `none` models the `ValueError` raised
when the separator is absent. -/
def splitFieldLine (line : String) : Option (String × String) :=
  match pySplit line ": " with
  | [] => none
  | [_] => none
  | p :: rest => some (p, String.intercalate ": " rest)

/-- Field loop of a `Type: language` record: collect `Subtag` and
`Suppress-Script`, each at most once; tolerate the listed fields;
any other field is fatal. -/
def parseLangLines : List String → String → String → Except RegError (String × String)
  | [], subtag, script => .ok (subtag, script)
  | line :: rest, subtag, script =>
    match splitFieldLine line with
    | none => .error (.langLineParse line)
    | some (p, suffix) =>
      if p = "Subtag" then
        if subtag ≠ "" then .error (.langMultipleSubtag subtag)
        else parseLangLines rest (pyStrip suffix) script
      else if p = "Suppress-Script" then
        if script ≠ "" then .error (.langMultipleScript script)
        else parseLangLines rest subtag (pyStrip suffix)
      else if p ∈ ["Added", "Comments", "Description", "Scope", "Macrolanguage",
                   "Deprecated", "Preferred-Value"] then
        parseLangLines rest subtag script
      else .error (.langUnexpectedField p)

/-- Field loop of a `Type: script` record: collect `Subtag` (at most once)
and every `Description`; tolerate `Added` and `Comments`; anything else
is fatal. -/
def parseScriptLines : List String → String → List String → Except RegError (String × List String)
  | [], subtag, descs => .ok (subtag, descs)
  | line :: rest, subtag, descs =>
    match splitFieldLine line with
    | none => .error (.scriptLineParse line)
    | some (p, suffix) =>
      if p = "Subtag" then
        if subtag ≠ "" then .error (.scriptMultipleSubtag subtag)
        else parseScriptLines rest (pyStrip suffix) descs
      else if p = "Description" then
        parseScriptLines rest subtag (setAdd descs (pyStrip suffix))
      else if p ∈ ["Added", "Comments"] then
        parseScriptLines rest subtag descs
      else .error (.scriptUnexpectedField p)

/-- Install a language record into `languages_by_script`
(only when both subtag and suppress-script are nonempty). -/
def addLanguage (rd : RegistryData) (subtag script : String) : RegistryData :=
  if subtag ≠ "" ∧ script ≠ "" then
    let cur := (rd.languages_by_script.lookup script).getD []
    { rd with languages_by_script := assocSet rd.languages_by_script script (setAdd cur subtag) }
  else rd

/-- Install the descriptions of one script record into
`scripts_by_description`; any description that is already a key is a
fatal duplicate, whatever subtag it is mapped to. -/
def insertDescriptions (m : List (String × String)) (subtag : String) :
    List String → Except RegError (List (String × String))
  | [] => .ok m
  | d :: ds =>
    match m.lookup d with
    | some old => .error (.duplicateDescription d old subtag)
    | none => insertDescriptions (m ++ [(d, subtag)]) subtag ds

/-- Install a script record into both script tables. -/
def addScript (rd : RegistryData) (subtag : String) (descs : List String) :
    Except RegError RegistryData :=
  if subtag ≠ "" ∧ descs ≠ [] then
    match insertDescriptions rd.scripts_by_description subtag descs with
    | .error e => .error e
    | .ok sbd =>
      match rd.scripts_by_subtag.lookup subtag with
      | some _ => .error (.duplicateSubtag subtag)
      | none => .ok { rd with scripts_by_description := sbd,
                              scripts_by_subtag := rd.scripts_by_subtag ++ [(subtag, descs)] }
  else .ok rd

/-- One `%%`-separated registry record.  The source builds a joined
continuation line but discards the join, so continuation lines are in
effect dropped; that behaviour is reproduced here. -/
def processEntry (rd : RegistryData) (entry : String) : Except RegError RegistryData :=
  let lines := pySplit (pyStrip entry) "\n"
  let lines :=
    if lines.any (fun l => pyStartsWith l "  ") then
      lines.filter (fun l => ¬ pyStartsWith l "  ")
    else lines
  if lines.headD "" = "Type: language" then
    match parseLangLines lines.tail "" "" with
    | .error e => .error e
    | .ok (subtag, script) => .ok (addLanguage rd subtag script)
  else if lines.headD "" = "Type: script" then
    match parseScriptLines lines.tail "" [] with
    | .error e => .error e
    | .ok (subtag, descs) => addScript rd subtag descs
  else .ok rd

/-- `ScriptDetector._parse_registry`: fold all `%%`-separated records. -/
def parse_registry (registry : String) : Except RegError RegistryData :=
  (pySplit registry "%%\n").foldlM processEntry {}

/-! ## Environment: external collaborators plus the registry tables -/

/-- The boundary of the orchestrator: the `langcodes` tag service,
`unicodedata` character metadata, the already-built registry tables and
the opaque transliteration backends. -/
structure Env where
  tag_is_valid : String → Bool
  standardize_tag : String → String
  lang_language : String → String
  lang_script : String → Option String
  isalpha : Char → Bool
  uname : Char → String
  scripts_by_description : List (String × String)
  languages_by_script : List (String × List String)
  iuliia_schemas : List (String × (String → String))
  slugify : String → String
  schizas : String → String
  manninen_dict : List (String × (String → String))
  yuconv : String → String

/-- `ScriptDetector.detect_scripts`: distinct alphabetic characters,
first word of each Unicode name, title-cased and looked up in
`scripts_by_description`.  An unresolved name contributes `none`
(the Python `dict.get` default). -/
def detect_scripts (env : Env) (text : String) : List (Option String) :=
  let chars := text.toList.dedup
  let scriptnames := ((chars.filter env.isalpha).map (fun c => firstWord (env.uname c))).dedup
  (scriptnames.map (fun n => env.scripts_by_description.lookup (pyTitle n))).dedup

/-! ## Result record and errors -/

/-- `RomanString`: one romanized form with its metadata. -/
structure RomanString where
  original : String
  original_lang_tag : String
  romanized : String
  engine : String
deriving DecidableEq

/-- Errors that escape `romanize` to the caller. -/
inductive RomError where
  | invalidTag (tag text : String)
  | nonLatinOutput (langtags romanized : String)
  | noneTranslate
  | keyError (key : String)
deriving DecidableEq

/-- An engine outcome: an unsupported language/script signal (caught and
skipped by the dispatch loop) or a fatal error (propagated). -/
inductive EngErr where
  | unsupported (msg : String)
  | fatal (e : RomError)
deriving DecidableEq

/-! ## Engine adapters -/

def iuliiaSupportedLangs : List String :=
  ["ab", "be", "bg", "kk", "mk", "ru", "uk", "uz", "uzn", "uzs"]

/-- `Romanizer._romanize_with_iuliia`. -/
def romanize_with_iuliia (env : Env) (text lang_subtag : String)
    (script_subtag : Option String) : Except EngErr (List RomanString) :=
  let langtags := env.standardize_tag (lang_subtag ++ "-" ++ pyStr script_subtag)
  if iuliiaSupportedLangs.contains lang_subtag && optMem script_subtag ["Cyrl"] then
    if (["uz", "uzn", "uzs"] : List String).contains lang_subtag then
      match env.iuliia_schemas.lookup "uz" with
      | none => .error (.fatal .noneTranslate)
      | some schema => .ok [⟨text, langtags, schema text, "iuliia"⟩]
    else
      let forms := (env.iuliia_schemas.filterMap (fun p =>
        if p.1 = "uz" then none
        else if lang_subtag ≠ "ru" ∧ p.1 = "mosmetro" then none
        else some (p.2 text))).dedup
      .ok (forms.map (fun rf => ⟨text, langtags, rf, "iuliia"⟩))
  else
    .error (.unsupported ("Unsupported language/script for iuliia engine: " ++ langtags))

/-- `Romanizer._romanize_with_python_slugify`: always available, no
capability check, one result. -/
def romanize_with_python_slugify (env : Env) (text lang_subtag : String)
    (script_subtag : Option String) : List RomanString :=
  [⟨text, env.standardize_tag (lang_subtag ++ "-" ++ pyStr script_subtag),
    env.slugify text, "python-slugify"⟩]

/-- `Romanizer._romanize_with_romanize_schizas`. -/
def romanize_with_romanize_schizas (env : Env) (text lang_subtag : String)
    (script_subtag : Option String) : Except EngErr (List RomanString) :=
  let langtags := env.standardize_tag (lang_subtag ++ "-" ++ pyStr script_subtag)
  if (["el"] : List String).contains lang_subtag && optMem script_subtag ["Grek"] then
    .ok [⟨text, langtags, env.schizas text, "romanize-schizas"⟩]
  else
    .error (.unsupported ("Unsupported language/script for romanize engine: " ++ langtags))

def manninenSupportedLangs : List String :=
  ["grc", "hy", "syc", "ar", "phn", "brh", "cop", "hbo"]

def manninenSupportedScripts : List String :=
  ["Grek", "Armn", "Syrc", "Arab", "Phnx", "Brah", "Copt", "Hebr"]

/-- Key used to index the `romanize3` module namespace. -/
def manninenKey (lang_subtag : String) : String :=
  if lang_subtag = "ar" then "ara"
  else if lang_subtag = "hy" then "arm"
  else if lang_subtag = "heb" then "hbo"
  else lang_subtag

/-- The substitution table `{"ή": "ḗ", "ي": "i"}` applied by the
romanize3 adapter cleanup. -/
def manninenSubst (c : Char) : Char :=
  if c = 'ή' then 'ḗ' else if c = 'ي' then 'i' else c

/-- The heuristic digraph repair: when an `h` occurs after the first
character and the first character is not a `t`, rewrite every later `h`
into `th`. -/
def thFix (rt : String) : String :=
  match rt.toList with
  | [] => rt
  | c0 :: rest =>
    if rest.contains 'h' ∧ c0.toLower ≠ 't' then
      String.mk (c0 :: rest.flatMap (fun c => if c = 'h' then ['t', 'h'] else [c]))
    else rt

/-- `Romanizer._romanize_with_romanize_manninen`: capability check,
conversion, cleanup, and the fatal consistency check that the cleaned
output is detected as exactly Latin. -/
def romanize_with_romanize_manninen (env : Env) (text lang_subtag : String)
    (script_subtag : Option String) : Except EngErr (List RomanString) :=
  let langtags := env.standardize_tag (lang_subtag ++ "-" ++ pyStr script_subtag)
  if manninenSupportedLangs.contains lang_subtag && optMem script_subtag manninenSupportedScripts then
    match env.manninen_dict.lookup (manninenKey lang_subtag) with
    | none => .error (.fatal (.keyError (manninenKey lang_subtag)))
    | some conv =>
      let rt := conv text
      if detect_scripts env rt ≠ [some "Latn"] then
        let rt2 := String.mk (rt.toList.map manninenSubst)
        if detect_scripts env rt2 ≠ [some "Latn"] then
          .error (.fatal (.nonLatinOutput langtags rt2))
        else .ok [⟨text, langtags, thFix rt2, "romanize-manninen"⟩]
      else .ok [⟨text, langtags, thFix rt, "romanize-manninen"⟩]
  else
    .error (.unsupported
      ("Unsupported language/script for romanize-manninen (romanize3) engine: " ++ langtags))

/-- `Romanizer._romanize_with_yuconv`. -/
def romanize_with_yuconv (env : Env) (text lang_subtag : String)
    (script_subtag : Option String) : Except EngErr (List RomanString) :=
  let langtags := env.standardize_tag (lang_subtag ++ "-" ++ pyStr script_subtag)
  if (["sr"] : List String).contains lang_subtag && optMem script_subtag ["Cyrl"] then
    .ok [⟨text, langtags, env.yuconv text, "yuconv"⟩]
  else
    .error (.unsupported ("Unsupported language/script for yuconv engine: " ++ langtags))

/-! ## Orchestrator (`Romanizer.romanize`) -/

/-- The fixed, ordered engine registry built in `Romanizer.__init__`. -/
def engineTable (env : Env) :
    List (String × (String → String → Option String → Except EngErr (List RomanString))) :=
  [("iuliia", romanize_with_iuliia env),
   ("python-slugify", fun t l s => .ok (romanize_with_python_slugify env t l s)),
   ("romanize-schizas", romanize_with_romanize_schizas env),
   ("romanize-manninen", romanize_with_romanize_manninen env),
   ("yuconv", romanize_with_yuconv env)]

/-- The all-engines loop: an `unsupported` signal is logged and skipped,
a fatal error propagates, successful forms are appended in registration
order. -/
def runEngines (text lang : String) (script : Option String) :
    List (String × (String → String → Option String → Except EngErr (List RomanString))) →
    Except RomError (List RomanString)
  | [] => .ok []
  | (_, f) :: rest =>
    match f text lang script with
    | .error (.unsupported _) => runEngines text lang script rest
    | .error (.fatal e) => .error e
    | .ok forms =>
      match runEngines text lang script rest with
      | .error e => .error e
      | .ok more => .ok (forms ++ more)

/-- Candidate languages for a detected script
(`languages_by_script.get(source_script, set())`). -/
def candidatesForScript (env : Env) (s : Option String) : List String :=
  match s with
  | none => []
  | some sc => (env.languages_by_script.lookup sc).getD []

/-- Language-tag inference for `"und"` input: adopt the unique candidate
language of the detected script, if there is exactly one. -/
def workingTag (env : Env) (lt : String) (source_script : Option String) : String :=
  if lt = "und" then
    let candidates := candidatesForScript env source_script
    if candidates.length = 1 then candidates.headD lt else lt
  else lt

/-- Expected script of a language tag; the ancient-Greek tag is pinned
to `"Grek"` because the tag service supplies no default script for it. -/
def expectedScriptFor (env : Env) (lt : String) : Option String :=
  if env.lang_language lt = "grc" then some "Grek" else env.lang_script lt

/-- Engine dispatch: a working tag starting with `"und"` consults only
python-slugify, any other tag consults every registered engine. -/
def dispatchEngines (env : Env) (text lt source_language : String)
    (source_script : Option String) : Except RomError (List RomanString) :=
  if pyStartsWith lt "und" then
    .ok (romanize_with_python_slugify env text source_language source_script)
  else
    runEngines text source_language source_script (engineTable env)

/-- Latin-script input additionally yields the original text verbatim
under the reserved `"identity"` engine marker. -/
def appendIdentity (text lt : String) (source_script : Option String)
    (roms : List RomanString) : List RomanString :=
  if source_script = some "Latn" then roms ++ [⟨text, lt, text, "identity"⟩] else roms

/-- `Romanizer.romanize`: validate and standardize the tag, detect the
script, infer a language for `"und"`, enforce script/language
consistency, dispatch, and append the Latin identity form. -/
def romanize (env : Env) (text lang_tags : String) : Except RomError (List RomanString) :=
  if env.tag_is_valid lang_tags = false then
    .error (.invalidTag lang_tags text)
  else
    let lt1 := env.standardize_tag lang_tags
    let actual_scripts := detect_scripts env text
    if actual_scripts.length ≠ 1 then .ok []
    else
      let source_script := actual_scripts.headD none
      let lt2 := workingTag env lt1 source_script
      if lt2 ≠ "und" then
        let expected_script := expectedScriptFor env lt2
        if source_script ≠ expected_script ∧ expected_script ≠ none then .ok []
        else
          (dispatchEngines env text lt2 (env.lang_language lt2) source_script).map
            (appendIdentity text lt2 source_script)
      else
        (dispatchEngines env text lt2 "und" source_script).map
          (appendIdentity text lt2 source_script)

/-! ## The `Romanizer` object: engine registry plus memo cache -/

/-- A `Romanizer` instance: its environment and the `lru_cache` backing
`romanize`, keyed by the exact `(text, lang_tags)` pair. -/
structure Romanizer where
  env : Env
  cache : List ((String × String) × Except RomError (List RomanString)) := []

/-- The `engines` property: the keys of the engine registry in
registration order. -/
def Romanizer.engines (r : Romanizer) : List String :=
  (engineTable r.env).map Prod.fst

/-- A memoized `romanize` call: answer from the cache when possible,
otherwise compute, store (bounded at 5000 entries) and answer. -/
def Romanizer.romanizeCached (r : Romanizer) (text lang_tags : String) :
    Romanizer × Except RomError (List RomanString) :=
  match r.cache.lookup (text, lang_tags) with
  | some res => (r, res)
  | none =>
    let res := romanize r.env text lang_tags
    ({ r with cache := (((text, lang_tags), res) :: r.cache).take 5000 }, res)

/-! ## A concrete environment for witnesses and counterexamples

Character metadata and tag-service answers below agree with the real
`unicodedata` and `langcodes` values for the characters and tags used. -/

def unameTable : List (Char × String) :=
  [('A', "LATIN CAPITAL LETTER A"),
   ('t', "LATIN SMALL LETTER T"),
   ('h', "LATIN SMALL LETTER H"),
   ('e', "LATIN SMALL LETTER E"),
   ('n', "LATIN SMALL LETTER N"),
   ('s', "LATIN SMALL LETTER S"),
   ('a', "LATIN SMALL LETTER A"),
   ('i', "LATIN SMALL LETTER I"),
   ('x', "LATIN SMALL LETTER X"),
   ('Α', "GREEK CAPITAL LETTER ALPHA"),
   ('θ', "GREEK SMALL LETTER THETA"),
   ('ή', "GREEK SMALL LETTER ETA WITH TONOS"),
   ('ν', "GREEK SMALL LETTER NU"),
   ('α', "GREEK SMALL LETTER ALPHA"),
   ('ʰ', "MODIFIER LETTER SMALL H")]

def unameT (c : Char) : String :=
  (unameTable.lookup c).getD ""

def isalphaT (c : Char) : Bool :=
  (unameTable.lookup c).isSome

def tagIsValidT (t : String) : Bool :=
  (["und", "el", "grc", "en", "sr", "ru", "und-Latn"] : List String).contains t

def standardizeT (t : String) : String :=
  if t = "el-Grek" then "el" else if t = "en-Latn" then "en" else t

def langLanguageT (t : String) : String :=
  if t = "grc-Grek" then "grc" else if t = "und-Latn" then "und" else t

def langScriptT (t : String) : Option String :=
  if t = "grc-Grek" then some "Grek" else if t = "und-Latn" then some "Latn" else none

def mannConvT (t : String) : String :=
  if t = "x" then "ή" else t

def envT : Env :=
  { tag_is_valid := tagIsValidT
    standardize_tag := standardizeT
    lang_language := langLanguageT
    lang_script := langScriptT
    isalpha := isalphaT
    uname := unameT
    scripts_by_description := [("Latin", "Latn"), ("Greek", "Grek")]
    languages_by_script := [("Grek", ["el"])]
    iuliia_schemas := [("ali", fun t => t)]
    slugify := fun t => if t = "Αθήνα" then "Athena" else t
    schizas := fun t => if t = "Αθήνα" then "Athina" else t
    manninen_dict := [("grc", mannConvT)]
    yuconv := fun t => t }

/-- The same environment with no candidate languages recorded for any
script, so the `"und"` inference never fires. -/
def envTnoCand : Env :=
  { envT with languages_by_script := [] }

/-! ## Claim C1 -/

/-- C1: for every text in which script detection finds zero or more than
one distinct script (the detected collection does not have exactly one
element) and every tag accepted by the validator, `romanize` returns the
empty list as a normal outcome, never an error. -/
theorem romanize_nonunique_script_empty (env : Env) (text tag : String)
    (hv : env.tag_is_valid tag = true)
    (hs : (detect_scripts env text).length ≠ 1) :
    romanize env text tag = .ok [] := by
  unfold romanize
  rw [hv]
  simp [hs]

theorem romanize_nonunique_script_empty_inst :
    envT.tag_is_valid "el" = true ∧ (detect_scripts envT "Aα").length ≠ 1 ∧
      romanize envT "Aα" "el" = .ok [] :=
  ⟨rfl, by decide, romanize_nonunique_script_empty envT "Aα" "el" rfl (by decide)⟩

/-! ## Claim C5 -/

/-- C5: for every tag rejected by the validator, `romanize` raises the
invalid-tag error, and the outcome is the same whatever the rest of the
environment is (in particular no script detection influences it). -/
theorem romanize_invalid_tag_error (env : Env) (text tag : String)
    (hv : env.tag_is_valid tag = false) :
    romanize env text tag = .error (.invalidTag tag text) ∧
      ∀ env2 : Env, env2.tag_is_valid tag = false →
        romanize env2 text tag = romanize env text tag := by
  have key : ∀ e : Env, e.tag_is_valid tag = false →
      romanize e text tag = .error (.invalidTag tag text) := by
    intro e he
    unfold romanize
    rw [he]
    simp
  exact ⟨key env hv, fun e2 h2 => by rw [key e2 h2, key env hv]⟩

theorem romanize_invalid_tag_error_inst :
    envT.tag_is_valid "xx" = false ∧
      romanize envT "abc" "xx" = .error (.invalidTag "xx" "abc") ∧
      romanize envTnoCand "abc" "xx" = romanize envT "abc" "xx" :=
  ⟨rfl, (romanize_invalid_tag_error envT "abc" "xx" rfl).1,
    (romanize_invalid_tag_error envT "abc" "xx" rfl).2 envTnoCand rfl⟩

/-! ## Claim C9 -/

/-- C9 counterexample: a registry whose two script records carry the same
description mapped to the *same* subtag is rejected with the
duplicate-description error (both subtags in the payload are `"Grek"`),
so a duplicate description with an unchanged subtag is not harmless. -/
theorem parse_registry_same_subtag_duplicate_cex :
    parse_registry ("Type: script\nSubtag: Grek\nDescription: Greek\n%%\n" ++
        "Type: script\nSubtag: Grek\nDescription: Greek") =
      .error (.duplicateDescription "Greek" "Grek" "Grek") := rfl

/-- C9 (amended): the registry parser fails with a duplicate-description
error whenever a script record carries a description that is already a
key of `scripts_by_description`, whatever subtag (same or different) the
existing entry maps to. -/
theorem insert_descriptions_duplicate_always_fatal
    (m : List (String × String)) (subtag d t : String) (ds : List String)
    (h : m.lookup d = some t) :
    insertDescriptions m subtag (d :: ds) = .error (.duplicateDescription d t subtag) := by
  unfold insertDescriptions
  rw [h]

theorem insert_descriptions_duplicate_always_fatal_inst :
    insertDescriptions [("Greek", "Grek")] "Grek" ["Greek"] =
      .error (.duplicateDescription "Greek" "Grek" "Grek") :=
  insert_descriptions_duplicate_always_fatal [("Greek", "Grek")] "Grek" "Greek" "Grek" [] rfl

/-! ## Claim C6 -/

/-- C6: in the all-engines dispatch loop an engine that signals an
unsupported language/script is skipped and the call proceeds with the
remaining engines; an engine failure marked fatal propagates to the
caller; and the romanize3 adapter turns output that is still non-Latin
after its substitution cleanup into such a fatal error. -/
theorem engine_dispatch_error_policy :
    (∀ (name : String)
       (f : String → String → Option String → Except EngErr (List RomanString))
       (rest : List (String × (String → String → Option String → Except EngErr (List RomanString))))
       (text lang : String) (script : Option String) (msg : String),
       f text lang script = .error (.unsupported msg) →
       runEngines text lang script ((name, f) :: rest) = runEngines text lang script rest) ∧
    (∀ (name : String)
       (f : String → String → Option String → Except EngErr (List RomanString))
       (rest : List (String × (String → String → Option String → Except EngErr (List RomanString))))
       (text lang : String) (script : Option String) (e : RomError),
       f text lang script = .error (.fatal e) →
       runEngines text lang script ((name, f) :: rest) = .error e) ∧
    (∀ (env : Env) (text lang : String) (script : Option String) (conv : String → String),
       manninenSupportedLangs.contains lang = true →
       optMem script manninenSupportedScripts = true →
       env.manninen_dict.lookup (manninenKey lang) = some conv →
       detect_scripts env (conv text) ≠ [some "Latn"] →
       detect_scripts env (String.mk ((conv text).toList.map manninenSubst)) ≠ [some "Latn"] →
       romanize_with_romanize_manninen env text lang script =
         .error (.fatal (.nonLatinOutput
           (env.standardize_tag (lang ++ "-" ++ pyStr script))
           (String.mk ((conv text).toList.map manninenSubst))))) := by
  refine ⟨?_, ?_, ?_⟩
  · intro name f rest text lang script msg h
    simp [runEngines, h]
  · intro name f rest text lang script e h
    simp [runEngines, h]
  · intro env text lang script conv h1 h2 h3 h4 h5
    unfold romanize_with_romanize_manninen
    rw [h1, h2, h3]
    simp only [String.toList] at h5
    simp [h4, h5]

theorem engine_dispatch_error_policy_inst :
    runEngines "t" "l" none
        [("e", fun _ _ _ => .error (.unsupported "m"))] = .ok [] ∧
    runEngines "t" "l" none
        (("e", fun _ _ _ => .error (.fatal (.keyError "k"))) ::
          [("f", fun _ _ _ => .ok [])]) = .error (.keyError "k") ∧
    romanize_with_romanize_manninen envT "x" "grc" (some "Grek") =
      .error (.fatal (.nonLatinOutput "grc-Grek" "ḗ")) :=
  ⟨engine_dispatch_error_policy.1 "e" _ [] "t" "l" none "m" rfl,
   engine_dispatch_error_policy.2.1 "e" _ [("f", fun _ _ _ => .ok [])] "t" "l" none
     (.keyError "k") rfl,
   engine_dispatch_error_policy.2.2 envT "x" "grc" (some "Grek") mannConvT rfl rfl rfl
     (by decide) (by decide)⟩

/-! ## Claim C2 -/

/-- C2: for a valid tag whose standardized form is not `"und"` and whose
expected script is known, a differing single detected script makes
`romanize` return the empty list (not an error); and for any tag whose
primary language is the ancient-Greek subtag `"grc"` the expected script
is `"Grek"`, independently of what default script the tag service
reports. -/
theorem romanize_script_mismatch_empty (env : Env) (text tag : String)
    (s : Option String) (exp : String)
    (hv : env.tag_is_valid tag = true)
    (hu : env.standardize_tag tag ≠ "und")
    (hd : detect_scripts env text = [s])
    (he : expectedScriptFor env (env.standardize_tag tag) = some exp)
    (hne : s ≠ some exp) :
    romanize env text tag = .ok [] ∧
      ∀ t2 : String, env.lang_language t2 = "grc" →
        expectedScriptFor env t2 = some "Grek" := by
  constructor
  · unfold romanize
    rw [hv]
    simp [hd, workingTag, hu, he, hne]
  · intro t2 h2
    unfold expectedScriptFor
    rw [h2]
    simp

theorem romanize_script_mismatch_empty_inst :
    envT.standardize_tag "grc" ≠ "und" ∧
      detect_scripts envT "Athens" = [some "Latn"] ∧
      romanize envT "Athens" "grc" = .ok [] ∧
      expectedScriptFor envT "grc" = some "Grek" :=
  ⟨by decide, rfl,
    (romanize_script_mismatch_empty envT "Athens" "grc" (some "Latn") "Grek" rfl (by decide)
      rfl rfl (by decide)).1,
    (romanize_script_mismatch_empty envT "Athens" "grc" (some "Latn") "Grek" rfl (by decide)
      rfl rfl (by decide)).2 "grc" rfl⟩

/-! ## Claim C3 -/

theorem pyStartsWith_und_und : pyStartsWith "und" "und" = true := rfl

/-- C3: when the working tag is still `"und"` after inference (supplied
as `"und"`, with not exactly one candidate language for the detected
script), `romanize` is the python-slugify adapter output — called with
the literal `"und"` language subtag and the detected script — plus the
Latin identity entry when applicable, and the outcome is unchanged when
every other registered backend is replaced arbitrarily. -/
theorem romanize_und_uses_only_slugify (env : Env) (text : String) (s : Option String)
    (hv : env.tag_is_valid "und" = true)
    (hstd : env.standardize_tag "und" = "und")
    (hd : detect_scripts env text = [s])
    (hc : (candidatesForScript env s).length ≠ 1) :
    romanize env text "und" =
      .ok (appendIdentity text "und" s (romanize_with_python_slugify env text "und" s)) ∧
    ∀ (sch : List (String × (String → String))) (schz : String → String)
      (man : List (String × (String → String))) (yc : String → String),
      romanize { env with iuliia_schemas := sch, schizas := schz,
                          manninen_dict := man, yuconv := yc } text "und" =
        romanize env text "und" := by
  have key : ∀ e : Env, e.tag_is_valid "und" = true → e.standardize_tag "und" = "und" →
      detect_scripts e text = [s] → (candidatesForScript e s).length ≠ 1 →
      romanize e text "und" =
        .ok (appendIdentity text "und" s (romanize_with_python_slugify e text "und" s)) := by
    intro e hv2 hstd2 hd2 hc2
    unfold romanize
    rw [hv2]
    simp [hd2, hstd2, workingTag, hc2, dispatchEngines, pyStartsWith_und_und, Except.map]
  refine ⟨key env hv hstd hd hc, fun sch schz man yc => ?_⟩
  rw [key { env with iuliia_schemas := sch, schizas := schz,
                     manninen_dict := man, yuconv := yc } hv hstd hd hc,
      key env hv hstd hd hc]
  rfl

theorem romanize_und_uses_only_slugify_inst :
    detect_scripts envT "Athens" = [some "Latn"] ∧
      (candidatesForScript envT (some "Latn")).length ≠ 1 ∧
      romanize envT "Athens" "und" =
        .ok (appendIdentity "Athens" "und" (some "Latn")
          (romanize_with_python_slugify envT "Athens" "und" (some "Latn"))) ∧
      romanize { envT with iuliia_schemas := [], schizas := fun t => t,
                           manninen_dict := [], yuconv := fun t => t } "Athens" "und" =
        romanize envT "Athens" "und" :=
  ⟨rfl, by decide,
    (romanize_und_uses_only_slugify envT "Athens" (some "Latn") rfl rfl rfl (by decide)).1,
    (romanize_und_uses_only_slugify envT "Athens" (some "Latn") rfl rfl rfl (by decide)).2
      [] (fun t => t) [] (fun t => t)⟩

/-! ## Claim C4 -/

theorem slugify_mem_tag (env : Env) (text lang : String) (script : Option String) :
    ∀ r ∈ romanize_with_python_slugify env text lang script,
      r.original_lang_tag = env.standardize_tag (lang ++ "-" ++ pyStr script) := by
  intro r hr
  simp only [romanize_with_python_slugify, List.mem_singleton] at hr
  rw [hr]

theorem iuliia_ok_tag (env : Env) (text lang : String) (script : Option String)
    (forms : List RomanString)
    (h : romanize_with_iuliia env text lang script = .ok forms) :
    ∀ r ∈ forms, r.original_lang_tag = env.standardize_tag (lang ++ "-" ++ pyStr script) := by
  unfold romanize_with_iuliia at h
  split at h
  · split at h
    · split at h
      · cases h
      · injection h with h2
        subst h2
        intro r hr
        simp only [List.mem_singleton] at hr
        rw [hr]
    · injection h with h2
      subst h2
      intro r hr
      rcases List.mem_map.mp hr with ⟨rf, _, hre⟩
      rw [← hre]
  · cases h

theorem schizas_ok_tag (env : Env) (text lang : String) (script : Option String)
    (forms : List RomanString)
    (h : romanize_with_romanize_schizas env text lang script = .ok forms) :
    ∀ r ∈ forms, r.original_lang_tag = env.standardize_tag (lang ++ "-" ++ pyStr script) := by
  unfold romanize_with_romanize_schizas at h
  split at h
  · injection h with h2
    subst h2
    intro r hr
    simp only [List.mem_singleton] at hr
    rw [hr]
  · cases h

theorem manninen_ok_tag (env : Env) (text lang : String) (script : Option String)
    (forms : List RomanString)
    (h : romanize_with_romanize_manninen env text lang script = .ok forms) :
    ∀ r ∈ forms, r.original_lang_tag = env.standardize_tag (lang ++ "-" ++ pyStr script) := by
  unfold romanize_with_romanize_manninen at h
  split at h
  · split at h
    · cases h
    · simp only [ne_eq] at h
      split at h
      · split at h
        · cases h
        · injection h with h2
          subst h2
          intro r hr
          simp only [List.mem_singleton] at hr
          rw [hr]
      · injection h with h2
        subst h2
        intro r hr
        simp only [List.mem_singleton] at hr
        rw [hr]
  · cases h

theorem yuconv_ok_tag (env : Env) (text lang : String) (script : Option String)
    (forms : List RomanString)
    (h : romanize_with_yuconv env text lang script = .ok forms) :
    ∀ r ∈ forms, r.original_lang_tag = env.standardize_tag (lang ++ "-" ++ pyStr script) := by
  unfold romanize_with_yuconv at h
  split at h
  · injection h with h2
    subst h2
    intro r hr
    simp only [List.mem_singleton] at hr
    rw [hr]
  · cases h

/-- Every member of a successful all-engines run satisfies any property
that every successful engine output satisfies. -/
theorem runEngines_mem (text lang : String) (script : Option String)
    (P : RomanString → Prop)
    (table : List (String × (String → String → Option String → Except EngErr (List RomanString))))
    (hT : ∀ name f, (name, f) ∈ table → ∀ forms, f text lang script = .ok forms →
      ∀ r ∈ forms, P r)
    (roms : List RomanString)
    (h : runEngines text lang script table = .ok roms) :
    ∀ r ∈ roms, P r := by
  induction table generalizing roms with
  | nil =>
    unfold runEngines at h
    injection h with h2
    subst h2
    intro r hr
    cases hr
  | cons p rest ih =>
    obtain ⟨name, f⟩ := p
    unfold runEngines at h
    split at h
    · exact ih (fun n g hg => hT n g (List.mem_cons_of_mem _ hg)) roms h
    · cases h
    · rename_i forms hf
      split at h
      · cases h
      · rename_i more hmore
        injection h with h2
        intro r hr
        rw [← h2] at hr
        rcases List.mem_append.mp hr with h3 | h3
        · exact hT name f (List.mem_cons_self _ _) forms hf r h3
        · exact ih (fun n g hg => hT n g (List.mem_cons_of_mem _ hg)) more hmore r h3

/-- Every member of a successful run over the full engine table carries
the standardized `lang-script` tag built by its adapter. -/
theorem runEngines_table_tag (env : Env) (text lang : String) (script : Option String)
    (roms : List RomanString)
    (h : runEngines text lang script (engineTable env) = .ok roms) :
    ∀ r ∈ roms, r.original_lang_tag = env.standardize_tag (lang ++ "-" ++ pyStr script) := by
  refine runEngines_mem text lang script
    (fun r => r.original_lang_tag = env.standardize_tag (lang ++ "-" ++ pyStr script))
    (engineTable env) ?_ roms h
  intro name f hmem forms hf
  simp only [engineTable, List.mem_cons, List.mem_singleton, Prod.mk.injEq,
    List.not_mem_nil, or_false] at hmem
  rcases hmem with ⟨_, hfe⟩ | ⟨_, hfe⟩ | ⟨_, hfe⟩ | ⟨_, hfe⟩ | ⟨_, hfe⟩ <;> subst hfe
  · exact iuliia_ok_tag env text lang script forms hf
  · have h2 : romanize_with_python_slugify env text lang script = forms := by
      injection hf
    rw [← h2]
    exact slugify_mem_tag env text lang script
  · exact schizas_ok_tag env text lang script forms hf
  · exact manninen_ok_tag env text lang script forms hf
  · exact yuconv_ok_tag env text lang script forms hf

/-- Membership through the Latin identity append. -/
theorem appendIdentity_mem (text lt : String) (s : Option String)
    (l : List RomanString) (r : RomanString)
    (hr : r ∈ appendIdentity text lt s l) :
    r ∈ l ∨ r = ⟨text, lt, text, "identity"⟩ := by
  unfold appendIdentity at hr
  split at hr
  · rcases List.mem_append.mp hr with h | h
    · exact .inl h
    · simp only [List.mem_singleton] at h
      exact .inr h
  · exact .inl hr

/-- C4 counterexample: on Greek text with tag `"und"`, the unique
candidate `"el"` is adopted and the `original_lang_tag` of every
returned `RomanString` becomes `"el"`; the identical call against an
environment differing only in the candidate table (no inference
possible) returns the tag `"und-Grek"`.  The inference therefore alters
the tag returned to the caller. -/
theorem romanize_und_inference_alters_tag_cex :
    romanize envT "Αθήνα" "und" =
      .ok [⟨"Αθήνα", "el", "Athena", "python-slugify"⟩,
           ⟨"Αθήνα", "el", "Athina", "romanize-schizas"⟩] ∧
    romanize envTnoCand "Αθήνα" "und" =
      .ok [⟨"Αθήνα", "und-Grek", "Athena", "python-slugify"⟩] ∧
    ("el" : String) ≠ "und-Grek" :=
  ⟨rfl, rfl, by decide⟩

/-- C4 (amended): when the supplied tag is `"und"` and exactly one
candidate language exists for the detected script, that candidate `c`
becomes the working tag for engine dispatch, and every returned
`RomanString` other than the Latin identity entry carries the
standardized tag built from the language of `c` and the detected
script — the tag returned to the caller is therefore derived from the
inferred candidate, not kept at `"und"`. -/
theorem romanize_und_inference_adopts_candidate (env : Env) (text : String)
    (s : Option String) (c : String)
    (hv : env.tag_is_valid "und" = true)
    (hstd : env.standardize_tag "und" = "und")
    (hd : detect_scripts env text = [s])
    (hc : candidatesForScript env s = [c])
    (hcu : c ≠ "und") :
    workingTag env "und" s = c ∧
    ∀ roms, romanize env text "und" = .ok roms →
      ∀ r ∈ roms, r.engine = "identity" ∨
        r.original_lang_tag = env.standardize_tag (env.lang_language c ++ "-" ++ pyStr s) := by
  have hwt : workingTag env "und" s = c := by
    simp [workingTag, hc]
  refine ⟨hwt, ?_⟩
  intro roms h r hr
  unfold romanize at h
  rw [hv] at h
  simp only [Bool.true_eq_false, if_false, hstd, hd, List.length_cons, List.length_nil,
    List.headD_cons, hwt, ne_eq] at h
  rw [if_neg (by simp)] at h
  rw [if_pos hcu] at h
  by_cases hm : s ≠ expectedScriptFor env c ∧ expectedScriptFor env c ≠ none
  · rw [if_pos hm] at h
    injection h with h2
    subst h2
    cases hr
  · rw [if_neg hm] at h
    unfold dispatchEngines at h
    split at h
    · simp only [Except.map] at h
      injection h with h2
      subst h2
      rcases appendIdentity_mem text c s _ r hr with h3 | h3
      · exact .inr (slugify_mem_tag env text (env.lang_language c) s r h3)
      · rw [h3]
        exact .inl rfl
    · cases hre : runEngines text (env.lang_language c) s (engineTable env) with
      | error e =>
        rw [hre] at h
        cases h
      | ok base =>
        rw [hre] at h
        simp only [Except.map] at h
        injection h with h2
        subst h2
        rcases appendIdentity_mem text c s base r hr with h3 | h3
        · exact .inr (runEngines_table_tag env text (env.lang_language c) s base hre r h3)
        · rw [h3]
          exact .inl rfl

theorem romanize_und_inference_adopts_candidate_inst :
    candidatesForScript envT (some "Grek") = ["el"] ∧
    workingTag envT "und" (some "Grek") = "el" ∧
    ((⟨"Αθήνα", "el", "Athena", "python-slugify"⟩ : RomanString).engine = "identity" ∨
      (⟨"Αθήνα", "el", "Athena", "python-slugify"⟩ : RomanString).original_lang_tag =
        envT.standardize_tag (envT.lang_language "el" ++ "-" ++ pyStr (some "Grek"))) :=
  ⟨rfl,
   (romanize_und_inference_adopts_candidate envT "Αθήνα" (some "Grek") "el" rfl rfl rfl rfl
     (by decide)).1,
   (romanize_und_inference_adopts_candidate envT "Αθήνα" (some "Grek") "el" rfl rfl rfl rfl
     (by decide)).2
     [⟨"Αθήνα", "el", "Athena", "python-slugify"⟩, ⟨"Αθήνα", "el", "Athina", "romanize-schizas"⟩]
     rfl ⟨"Αθήνα", "el", "Athena", "python-slugify"⟩ (List.mem_cons_self _ _)⟩

/-! ## Claim C7 -/

theorem optMem_latn_cyrl : optMem (some "Latn") ["Cyrl"] = false := rfl

theorem optMem_latn_grek : optMem (some "Latn") ["Grek"] = false := rfl

theorem optMem_latn_manninen : optMem (some "Latn") manninenSupportedScripts = false := rfl

/-- On Latin-script input every capability-scoped engine signals
unsupported, so the all-engines run returns exactly the python-slugify
forms. -/
theorem runEngines_latin (env : Env) (text lang : String) :
    runEngines text lang (some "Latn") (engineTable env) =
      .ok (romanize_with_python_slugify env text lang (some "Latn")) := by
  simp [runEngines, engineTable, romanize_with_iuliia, romanize_with_romanize_schizas,
        romanize_with_romanize_manninen, romanize_with_yuconv,
        optMem_latn_cyrl, optMem_latn_grek, optMem_latn_manninen]

/-- With a valid tag and a single detected script, `romanize` reduces to
the consistency check plus dispatch plus identity append. -/
theorem romanize_reduces (env : Env) (text tag : String) (s : Option String)
    (hv : env.tag_is_valid tag = true)
    (hd : detect_scripts env text = [s]) :
    romanize env text tag =
      (if workingTag env (env.standardize_tag tag) s ≠ "und" then
         if s ≠ expectedScriptFor env (workingTag env (env.standardize_tag tag) s) ∧
            expectedScriptFor env (workingTag env (env.standardize_tag tag) s) ≠ none then
           .ok []
         else
           (dispatchEngines env text (workingTag env (env.standardize_tag tag) s)
               (env.lang_language (workingTag env (env.standardize_tag tag) s)) s).map
             (appendIdentity text (workingTag env (env.standardize_tag tag) s) s)
       else
         (dispatchEngines env text (workingTag env (env.standardize_tag tag) s) "und" s).map
           (appendIdentity text (workingTag env (env.standardize_tag tag) s) s)) := by
  unfold romanize
  rw [hv]
  simp [hd]

theorem filter_identity_append (l : List RomanString) (a : RomanString)
    (h : ∀ r ∈ l, r.engine ≠ "identity") (ha : a.engine = "identity") :
    (l ++ [a]).filter (fun r => r.engine == "identity") = [a] := by
  rw [List.filter_append]
  have h1 : l.filter (fun r => r.engine == "identity") = [] := by
    rw [List.filter_eq_nil_iff]
    intro r hr
    simpa using h r hr
  rw [h1, List.nil_append]
  simp [List.filter, ha]

theorem identity_filter (env : Env) (text L lt : String) :
    (appendIdentity text lt (some "Latn")
        (romanize_with_python_slugify env text L (some "Latn"))).filter
      (fun r => r.engine == "identity") = [⟨text, lt, text, "identity"⟩] := by
  unfold appendIdentity
  rw [if_pos rfl]
  apply filter_identity_append
  · intro r hr
    simp only [romanize_with_python_slugify, List.mem_singleton] at hr
    rw [hr]
    show ("python-slugify" : String) ≠ "identity"
    decide
  · rfl

/-- C7 counterexample: `"Athens"` with the valid tag `"grc"` has the
single detected script `"Latn"`, yet `romanize` returns the empty list
(script/language mismatch), which contains no identity entry. -/
theorem romanize_latin_identity_cex :
    envT.tag_is_valid "grc" = true ∧
    detect_scripts envT "Athens" = [some "Latn"] ∧
    romanize envT "Athens" "grc" = .ok [] :=
  ⟨rfl, rfl, rfl⟩

/-- C7 (amended): for a valid tag and Latin single detected script,
*provided the call is not aborted by the script/language mismatch check*
(the working tag is `"und"`, or its expected script is unknown or is
`"Latn"`), the result contains exactly one `RomanString` with engine
`"identity"`, whose `romanized` field is the input text verbatim. -/
theorem romanize_latin_identity_amended (env : Env) (text tag : String)
    (hv : env.tag_is_valid tag = true)
    (hd : detect_scripts env text = [some "Latn"])
    (hw : workingTag env (env.standardize_tag tag) (some "Latn") = "und" ∨
          expectedScriptFor env (workingTag env (env.standardize_tag tag) (some "Latn")) = none ∨
          expectedScriptFor env (workingTag env (env.standardize_tag tag) (some "Latn")) =
            some "Latn") :
    (romanize env text tag).map (fun l => l.filter (fun r => r.engine == "identity")) =
      .ok [⟨text, workingTag env (env.standardize_tag tag) (some "Latn"), text, "identity"⟩] := by
  rw [romanize_reduces env text tag (some "Latn") hv hd]
  set lt2 := workingTag env (env.standardize_tag tag) (some "Latn") with hlt
  by_cases hu : lt2 = "und"
  · rw [if_neg (by simp [hu])]
    rw [hu]
    unfold dispatchEngines
    rw [if_pos pyStartsWith_und_und]
    simp only [Except.map]
    rw [identity_filter]
  · rw [if_pos hu]
    have hcond : ¬(some "Latn" ≠ expectedScriptFor env lt2 ∧
        expectedScriptFor env lt2 ≠ none) := by
      rcases hw with hw | hw | hw
      · exact absurd hw hu
      · exact fun hcontra => hcontra.2 hw
      · exact fun hcontra => hcontra.1 hw.symm
    rw [if_neg hcond]
    unfold dispatchEngines
    by_cases hsw : pyStartsWith lt2 "und" = true
    · rw [if_pos hsw]
      simp only [Except.map]
      rw [identity_filter]
    · rw [if_neg hsw, runEngines_latin env text (env.lang_language lt2)]
      simp only [Except.map]
      rw [identity_filter]

theorem romanize_latin_identity_amended_inst :
    (romanize envT "Athens" "en").map (fun l => l.filter (fun r => r.engine == "identity")) =
      .ok [⟨"Athens", "en", "Athens", "identity"⟩] :=
  romanize_latin_identity_amended envT "Athens" "en" rfl rfl (Or.inr (Or.inl rfl))

/-! ## Claim C8 -/

theorem filter_dedup_comm {α : Type} [DecidableEq α] (p : α → Bool) (l : List α) :
    (l.filter p).dedup = l.dedup.filter p := by
  induction l with
  | nil => simp
  | cons a l ih =>
    by_cases hpa : p a = true
    · by_cases hal : a ∈ l
      · have h1 : a ∈ l.filter p := List.mem_filter.mpr ⟨hal, hpa⟩
        rw [List.filter_cons_of_pos hpa, List.dedup_cons_of_mem h1, ih,
            List.dedup_cons_of_mem hal]
      · have h1 : a ∉ l.filter p := fun h => hal (List.mem_filter.mp h).1
        rw [List.filter_cons_of_pos hpa, List.dedup_cons_of_not_mem h1, ih,
            List.dedup_cons_of_not_mem hal, List.filter_cons_of_pos hpa]
    · have hpa2 : p a = false := by
        cases h2 : p a
        · rfl
        · exact absurd h2 hpa
      by_cases hal : a ∈ l
      · rw [List.filter_cons_of_neg (by simp [hpa2]), List.dedup_cons_of_mem hal, ih]
      · rw [List.filter_cons_of_neg (by simp [hpa2]), List.dedup_cons_of_not_mem hal,
            List.filter_cons_of_neg (by simp [hpa2]), ih]

/-- C8 counterexample: the modifier letter `ʰ` is alphabetic, its
derived description `"Modifier"` has no registry entry, and yet it
contributes the placeholder `none` to the detector output instead of
being dropped. -/
theorem detect_scripts_unresolved_none_cex :
    detect_scripts envT "ʰ" = [none] ∧
    envT.isalpha 'ʰ' = true ∧
    envT.scripts_by_description.lookup (pyTitle (firstWord (envT.uname 'ʰ'))) = none ∧
    ([none] : List (Option String)) ≠ [] :=
  ⟨rfl, rfl, rfl, by decide⟩

/-- C8 (amended): `detect_scripts` ignores non-alphabetic characters
entirely; an alphabetic character whose derived script description has
no registry entry contributes the placeholder `none` (rather than
nothing); and every element of the output is the
`scripts_by_description` lookup result of some alphabetic character of
the text. -/
theorem detect_scripts_character_accounting (env : Env) (text : String) :
    detect_scripts env (String.mk (text.toList.filter env.isalpha)) = detect_scripts env text ∧
    (∀ c ∈ text.toList, env.isalpha c = true →
      env.scripts_by_description.lookup (pyTitle (firstWord (env.uname c))) = none →
      none ∈ detect_scripts env text) ∧
    (∀ x ∈ detect_scripts env text, ∃ c ∈ text.toList,
      env.isalpha c = true ∧
      env.scripts_by_description.lookup (pyTitle (firstWord (env.uname c))) = x) := by
  refine ⟨?_, ?_, ?_⟩
  · show ((((String.mk (text.toList.filter env.isalpha)).toList.dedup.filter
        env.isalpha).map (fun c => firstWord (env.uname c))).dedup.map
          (fun n => env.scripts_by_description.lookup (pyTitle n))).dedup = _
    have h1 : (String.mk (text.toList.filter env.isalpha)).toList =
        text.toList.filter env.isalpha := rfl
    rw [h1, ← filter_dedup_comm, List.filter_filter]
    have h2 : (fun a => env.isalpha a && env.isalpha a) = env.isalpha := by
      funext a
      cases env.isalpha a <;> rfl
    rw [h2, filter_dedup_comm]
    rfl
  · intro c hc hal hnone
    have h1 : c ∈ text.toList.dedup := List.mem_dedup.mpr hc
    have h2 : c ∈ text.toList.dedup.filter env.isalpha := List.mem_filter.mpr ⟨h1, hal⟩
    have h3 : firstWord (env.uname c) ∈
        (text.toList.dedup.filter env.isalpha).map (fun c => firstWord (env.uname c)) :=
      List.mem_map_of_mem _ h2
    have h4 : firstWord (env.uname c) ∈
        ((text.toList.dedup.filter env.isalpha).map
          (fun c => firstWord (env.uname c))).dedup := List.mem_dedup.mpr h3
    have h5 : none ∈ (((text.toList.dedup.filter env.isalpha).map
        (fun c => firstWord (env.uname c))).dedup.map
          (fun n => env.scripts_by_description.lookup (pyTitle n))) := by
      rw [← hnone]
      exact List.mem_map_of_mem _ h4
    exact List.mem_dedup.mpr h5
  · intro x hx
    have hx2 : x ∈ (((text.toList.dedup.filter env.isalpha).map
        (fun c => firstWord (env.uname c))).dedup.map
          (fun n => env.scripts_by_description.lookup (pyTitle n))) :=
      List.mem_dedup.mp hx
    rcases List.mem_map.mp hx2 with ⟨n, hn, hnx⟩
    rcases List.mem_map.mp (List.mem_dedup.mp hn) with ⟨c, hcmem, hcn⟩
    rcases List.mem_filter.mp hcmem with ⟨hcd, hca⟩
    refine ⟨c, List.mem_dedup.mp hcd, hca, ?_⟩
    rw [hcn, hnx]

theorem detect_scripts_character_accounting_inst :
    detect_scripts envT (String.mk ("Aʰ1".toList.filter envT.isalpha)) =
      detect_scripts envT "Aʰ1" ∧
    none ∈ detect_scripts envT "Aʰ1" :=
  ⟨(detect_scripts_character_accounting envT "Aʰ1").1,
   (detect_scripts_character_accounting envT "Aʰ1").2.1 'ʰ' (by decide) rfl rfl⟩

/-! ## Claim C10 -/

/-- C10: every `Romanizer` reports exactly the five registered engines
in registration order, and any sequence of (memoized) `romanize` calls
leaves the `engines` property unchanged. -/
theorem engines_property_fixed_and_stable :
    ∀ r : Romanizer,
      r.engines = ["iuliia", "python-slugify", "romanize-schizas",
                   "romanize-manninen", "yuconv"] ∧
      ∀ calls : List (String × String),
        (calls.foldl (fun s c => (s.romanizeCached c.1 c.2).1) r).engines = r.engines := by
  have hEng : ∀ r : Romanizer,
      r.engines = ["iuliia", "python-slugify", "romanize-schizas",
                   "romanize-manninen", "yuconv"] := fun r => rfl
  intro r
  exact ⟨hEng r, fun calls => by rw [hEng, hEng]⟩

end PleiadesWS

